import Mathlib

/-!
Verification development for the logze structured-logging facade
(package logze, a zerolog wrapper).

The definitions below are a shallow embedding of the package sources:
`logze.go` (types `Logger`, the entry points `Trace` .. `Fatalln`, and the
internal helpers `log`, `logf`, `setErrorWithStack`, `incErrorConter`),
`config.go` (type `Config` and its `With*` builders) and the level
constants.  Values passed through Go variadic `...any` parameters are
modelled by the inductive type `Val`; the zerolog backend event is
modelled by `Event` and the emitted structured record by `Record`.
Go slices carry a backing-array reference, an offset, a length and a
capacity; the writer list of `Config` is modelled faithfully by
`GoSlice` together with a `Store` of backing arrays, because the
builder claims depend on slice aliasing.
-/

namespace Logze

/-- Severity tags carried by a backend event / emitted record.  These
correspond to the zerolog level of the event constructor used by each
entry point (`l.Trace()`, `l.Debug()`, ..., `WithLevel(FatalLevel)`,
`Log()` for the level-less printers). -/
inductive Severity where
  | trace
  | debug
  | info
  | warn
  | error
  | fatal
  | nolevel
deriving DecidableEq, Repr

/-- Dynamic values passed through Go variadic `...any` parameters.
`vstr` is a Go string, `vint` an integer, `verr e` a non-nil value whose
dynamic type implements the `error` interface and whose `Error()` method
returns `e`, and `vnil` the nil interface value (for example a nil
`error` converted to `any`). -/
inductive Val where
  | vstr (s : String)
  | vint (n : Int)
  | verr (e : String)
  | vnil
deriving DecidableEq, Repr

/-- The Go type assertion `a.(error)` succeeds exactly on non-nil values
implementing the error interface, i.e. on `verr`. -/
def isErrorVal : Val → Bool
  | .verr _ => true
  | _ => false

/-- Go string rendering of a value, as produced by `fmt` verbs `%s`, `%d`
and `%v` on the kinds of values modelled here. -/
def valToString : Val → String
  | .vstr s => s
  | .vint n => toString n
  | .verr e => e
  | .vnil => "<nil>"

/-- Whether the value is a Go string operand (used by the spacing rule of
`fmt.Sprint`). -/
def isStrVal : Val → Bool
  | .vstr _ => true
  | _ => false

/-- Does the character list start with the given pattern?  Helper for the
substring test of `strings.Contains`. -/
def startsWithList : List Char → List Char → Bool
  | _, [] => true
  | [], _ :: _ => false
  | c :: cs, d :: ds => c == d && startsWithList cs ds

/-- Substring containment on character lists: some suffix of the first
list starts with the second list. -/
def containsList : List Char → List Char → Bool
  | [], sub => sub.isEmpty
  | c :: cs, sub => startsWithList (c :: cs) sub || containsList cs sub

/-- Model of Go `strings.Contains s sub` (case-sensitive substring
containment; every string contains the empty string). -/
def goContains (s sub : String) : Bool :=
  containsList s.data sub.data

/-- Model of Go `strings.Count msg "%"`: the number of (one-character,
hence non-overlapping) occurrences of the percent sign in `msg`. -/
def countPercent (msg : String) : Nat :=
  (msg.data.filter (fun c => c == '%')).length

/-- Character-level worker for `sprintf`: a model of Go `fmt.Sprintf`
restricted to the argument-consuming verbs `%s`, `%d`, `%v` (each of
which consumes one operand and renders it with `valToString`) and the
escape `%%`.  It is used only to evaluate rendered messages at concrete
inputs whose format strings stay inside this fragment, where it agrees
with the Go library. -/
def sprintfAux : List Char → List Val → List Char
  | [], _ => []
  | ['%'], _ => ['%']
  | '%' :: c :: rest, args =>
      if c == '%' then '%' :: sprintfAux rest args
      else
        match args with
        | a :: as => (valToString a).data ++ sprintfAux rest as
        | [] => '%' :: '!' :: c :: ("(MISSING)".data ++ sprintfAux rest [])
  | c :: rest, args => c :: sprintfAux rest args

/-- Model of Go `fmt.Sprintf` over `Val` operands (see `sprintfAux`). -/
def sprintf (msg : String) (args : List Val) : String :=
  ⟨sprintfAux msg.data args⟩

/-- Model of Go `fmt.Sprint`: concatenates the operands, inserting a
space between two neighbouring operands exactly when neither is a
string. -/
def sprintVals : List Val → String
  | [] => ""
  | [a] => valToString a
  | a :: b :: rest =>
      valToString a ++ (if isStrVal a || isStrVal b then "" else " ")
        ++ sprintVals (b :: rest)

/-- Model of Go `fmt.Sprintln`: space-separated operands with a trailing
newline. -/
def sprintlnVals (vs : List Val) : String :=
  String.intercalate " " (vs.map valToString) ++ "\n"

/-- The zerolog backend pairing of a flat `...any` field list, as done by
`Event.Fields` on a slice argument: an odd trailing element is dropped,
and each (key, value) pair is kept only when the key is a string. -/
def pairsOf : List Val → List (String × Val)
  | k :: v :: rest =>
      (match k with
       | .vstr s => [(s, v)]
       | _ => []) ++ pairsOf rest
  | _ => []

/-- Model of a pending `zerolog.Event`: the severity of its constructor,
the key-value pairs appended by `Fields`, the messages of the errors
attached by `Err` (zerolog appends one error key per `Err` call), the
stack flag set by `Stack`, and the caller flag set by `Caller`. -/
structure Event where
  sev : Severity
  fields : List (String × Val) := []
  errs : List String := []
  stacked : Bool := false
  caller : Bool := false
deriving DecidableEq, Repr

/-- Fresh event for a severity, as returned by the zerolog level
constructors. -/
def Event.new (sev : Severity) : Event := { sev := sev }

/-- `ev.Fields fs` on a flat value list (see `pairsOf`). -/
def Event.addFields (ev : Event) (fs : List Val) : Event :=
  { ev with fields := ev.fields ++ pairsOf fs }

/-- A structured record emitted by `Msg`/`Msgf`: `msg` is the message
string handed to the backend, `fmtArgs` the substitution operands of a
`Msgf` call (empty for `Msg`), and the rest is the event state at
emission time. -/
structure Record where
  sev : Severity
  msg : String
  fmtArgs : List Val
  fields : List (String × Val)
  errs : List String
  stacked : Bool
  caller : Bool
deriving DecidableEq, Repr

/-- Finalize an event into a record with the given message and `Msgf`
substitution operands. -/
def Event.toRecord (ev : Event) (msg : String) (fmtArgs : List Val) : Record :=
  ⟨ev.sev, msg, fmtArgs, ev.fields, ev.errs, ev.stacked, ev.caller⟩

/-- The message finally rendered by the backend: `Msg` emits `msg`
verbatim, `Msgf` renders the format string with its operands. -/
def Record.rendered (r : Record) : String :=
  if r.fmtArgs.isEmpty then r.msg else sprintf r.msg r.fmtArgs

/-- The logger state relevant to record emission: the ignore-list
(`toIgnore`), the stack-trace flag (`stackTrace`) and whether a non-nil
`ErrorCounter` is attached (`errCounter != nil` in `incErrorConter`).
The zerolog handle itself only contributes the event constructors
modelled by `Event.new`. -/
structure Logger where
  toIgnore : List String := []
  stackTrace : Bool := false
  hasCounter : Bool := true
deriving DecidableEq, Repr

/-- Index and message of the first value in the list whose `a.(error)`
assertion succeeds, scanning left to right as the `range` loop of
`setErrorWithStack` does. -/
def findErrIdx : List Val → Option (Nat × String)
  | [] => none
  | a :: rest =>
      match a with
      | .verr e => some (0, e)
      | _ => (findErrIdx rest).map (fun p => (p.1 + 1, p.2))

/-- Caller-visible contents of the argument slice after the in-place
removal hack `_ = append(args[:i-1], args[i+1:]...)` executed when the
first error sits at index `i`.  The append shifts the elements after the
error two slots to the left inside the shared backing array but the
caller keeps a slice header of the original length, so the final two
slots retain their old values; for `i = 0` no removal is attempted. -/
def removeAtPair (args : List Val) (i : Nat) : List Val :=
  if i = 0 then args
  else args.take (i - 1) ++ args.drop (i + 1) ++ args.drop (args.length - 2)

/-- Result of `Logger.setErrorWithStack`: the updated event, the list of
error messages handed to `ErrorCounter.Inc` (empty or a singleton), and
the caller-visible argument list after the in-place mutation. -/
structure SewsOut where
  ev : Event
  incs : List String
  args : List Val
deriving DecidableEq, Repr

/-- Shallow embedding of `Logger.setErrorWithStack(ev, args...)`: scan
`args` left to right for the first value asserting to `error`; if one is
found at index `i` with message `m`, optionally mark the stack (the
modelled errors carry no pre-captured `StackForLogger` stack, so the
`errors.WithStack` branch runs, which leaves the message unchanged),
increment the counter once when a counter is attached, perform the
in-place removal (see `removeAtPair`), and attach the error via
`ev.Err`.  Without an error the event and arguments are returned
untouched and the counter is not incremented. -/
def Logger.setErrorWithStack (l : Logger) (ev : Event) (args : List Val) : SewsOut :=
  match findErrIdx args with
  | none => ⟨ev, [], args⟩
  | some (i, m) =>
      let ev1 := if l.stackTrace then { ev with stacked := true } else ev
      ⟨{ ev1 with errs := ev1.errs ++ [m] },
       if l.hasCounter then [m] else [],
       removeAtPair args i⟩

/-- Outcome of one logging call: the emitted records (empty or a
singleton) and the messages of the errors counted by the
`ErrorCounter`. -/
structure LogResult where
  records : List Record
  incs : List String
deriving DecidableEq, Repr

/-- Has the message matched the ignore-list?  `log` and `logf` iterate
over `l.toIgnore` and return on the first `strings.Contains(msg,
ignore)` hit. -/
def ignored (l : Logger) (msg : String) : Bool :=
  l.toIgnore.any (fun ig => goContains msg ig)

/-- Shallow embedding of `Logger.log(ev, msg, fields)`: drop everything
on an ignore-list match; otherwise, when more than one field is given,
run the error scan over the fields and append the (possibly mutated)
field list, then emit the message. -/
def Logger.log (l : Logger) (ev : Event) (msg : String) (fields : List Val) : LogResult :=
  if ignored l msg then ⟨[], []⟩
  else if fields.length > 1 then
    let s := l.setErrorWithStack ev fields
    let ev2 := s.ev.addFields s.args
    ⟨[ev2.toRecord msg []], s.incs⟩
  else
    ⟨[ev.toRecord msg []], []⟩

/-- Shallow embedding of `Logger.logf(ev, msg, args)`: drop everything on
an ignore-list match against the raw format string; count the percent
signs; when `0 < n` and `n` does not exceed the argument count, run the
error scan over all arguments, attach the (mutated) arguments past
position `n` as fields and keep the first `n` (of the mutated list) as
`Msgf` operands; when the count is zero and arguments exist, run the
error scan and attach all (mutated) arguments as fields, emitting the
message verbatim; otherwise emit via `Msg` or `Msgf` depending on
whether arguments remain. -/
def Logger.logf (l : Logger) (ev : Event) (msg : String) (args : List Val) : LogResult :=
  if ignored l msg then ⟨[], []⟩
  else
    let n := countPercent msg
    if 0 < n ∧ n ≤ args.length then
      let s := l.setErrorWithStack ev args
      let ev2 := s.ev.addFields (s.args.drop n)
      let args2 := s.args.take n
      if args2.length = 0 then ⟨[ev2.toRecord msg []], s.incs⟩
      else ⟨[ev2.toRecord msg args2], s.incs⟩
    else if n = 0 ∧ 0 < args.length then
      let s := l.setErrorWithStack ev args
      let ev2 := s.ev.addFields s.args
      ⟨[ev2.toRecord msg []], s.incs⟩
    else if args.length = 0 then
      ⟨[ev.toRecord msg []], []⟩
    else
      ⟨[ev.toRecord msg args], []⟩

/-- `Logger.Trace`: trace event with caller information. -/
def Logger.Trace (l : Logger) (msg : String) (fields : List Val) : LogResult :=
  l.log { Event.new .trace with caller := true } msg fields

/-- `Logger.Debug`. -/
def Logger.Debug (l : Logger) (msg : String) (fields : List Val) : LogResult :=
  l.log (Event.new .debug) msg fields

/-- `Logger.Info`. -/
def Logger.Info (l : Logger) (msg : String) (fields : List Val) : LogResult :=
  l.log (Event.new .info) msg fields

/-- `Logger.Warn`. -/
def Logger.Warn (l : Logger) (msg : String) (fields : List Val) : LogResult :=
  l.log (Event.new .warn) msg fields

/-- `Logger.Error` (v2 signature: message and fields, no error
argument). -/
def Logger.Error (l : Logger) (msg : String) (fields : List Val) : LogResult :=
  l.log (Event.new .error) msg fields

/-- `Logger.Err(err, msg, fields...)`: the error scan over the single
dedicated error argument runs first (incrementing the counter and
attaching the error when it is non-nil), and only then does `log` apply
the ignore-list check and emit. -/
def Logger.Err (l : Logger) (e : Val) (msg : String) (fields : List Val) : LogResult :=
  let s := l.setErrorWithStack (Event.new .error) [e]
  let res := l.log s.ev msg fields
  ⟨res.records, s.incs ++ res.incs⟩

/-- `Logger.Tracef`: formatted trace with caller information. -/
def Logger.Tracef (l : Logger) (msg : String) (args : List Val) : LogResult :=
  l.logf { Event.new .trace with caller := true } msg args

/-- `Logger.Debugf`. -/
def Logger.Debugf (l : Logger) (msg : String) (args : List Val) : LogResult :=
  l.logf (Event.new .debug) msg args

/-- `Logger.Infof`. -/
def Logger.Infof (l : Logger) (msg : String) (args : List Val) : LogResult :=
  l.logf (Event.new .info) msg args

/-- `Logger.Warnf`. -/
def Logger.Warnf (l : Logger) (msg : String) (args : List Val) : LogResult :=
  l.logf (Event.new .warn) msg args

/-- `Logger.Errorf` (v2 signature: message and args, no error
argument). -/
def Logger.Errorf (l : Logger) (msg : String) (args : List Val) : LogResult :=
  l.logf (Event.new .error) msg args

/-- Severity-indexed dispatch over the non-formatted leveled entry
points; used to quantify claims over every severity.  The `fatal` and
`nolevel` cases run the same internal `log` path used by the fatal and
print entry points. -/
def Logger.leveled (l : Logger) (sev : Severity) (msg : String) (fields : List Val) : LogResult :=
  match sev with
  | .trace => l.Trace msg fields
  | .debug => l.Debug msg fields
  | .info => l.Info msg fields
  | .warn => l.Warn msg fields
  | .error => l.Error msg fields
  | .fatal => l.log (Event.new .fatal) msg fields
  | .nolevel => l.log (Event.new .nolevel) msg fields

/-- Severity-indexed dispatch over the formatted leveled entry
points. -/
def Logger.leveledf (l : Logger) (sev : Severity) (msg : String) (args : List Val) : LogResult :=
  match sev with
  | .trace => l.Tracef msg args
  | .debug => l.Debugf msg args
  | .info => l.Infof msg args
  | .warn => l.Warnf msg args
  | .error => l.Errorf msg args
  | .fatal => l.logf (Event.new .fatal) msg args
  | .nolevel => l.logf (Event.new .nolevel) msg args

/-- Outcome of a Fatal-level call: emitted records, counted error
messages, and whether `os.Exit(1)` was reached. -/
structure FatalResult where
  records : List Record
  incs : List String
  exited : Bool
deriving DecidableEq, Repr

/-- `Logger.Fatal(v...)`: render the operands with `fmt.Sprint`, count a
synthesized `errors.New(s)`, log at fatal level with no fields, then
`os.Exit(1)`. -/
def Logger.Fatal (l : Logger) (v : List Val) : FatalResult :=
  let s := sprintVals v
  let inc := if l.hasCounter then [s] else []
  let res := l.log (Event.new .fatal) s []
  ⟨res.records, inc ++ res.incs, true⟩

/-- `Logger.Fatalf(format, args...)`: count a synthesized
`fmt.Errorf(format, args...)`, log via the non-formatted `log` with the
raw format string as message and the args as fields, then
`os.Exit(1)`. -/
def Logger.Fatalf (l : Logger) (format : String) (args : List Val) : FatalResult :=
  let inc := if l.hasCounter then [sprintf format args] else []
  let res := l.log (Event.new .fatal) format args
  ⟨res.records, inc ++ res.incs, true⟩

/-- `Logger.Fatalln(v...)`: like `Fatal` with `fmt.Sprintln`
rendering. -/
def Logger.Fatalln (l : Logger) (v : List Val) : FatalResult :=
  let s := sprintlnVals v
  let inc := if l.hasCounter then [s] else []
  let res := l.log (Event.new .fatal) s []
  ⟨res.records, inc ++ res.incs, true⟩

/-! Go slices and the backing-array store, for the `Config` writer list.
A Go slice header is an (array, offset, length, capacity) quadruple; the
store holds the allocated backing arrays (each represented at its full
capacity, unused slots filled with `0`).  Writers themselves are opaque
and represented by numeric identifiers. -/

/-- A Go slice header over the store: backing array index, offset,
length and capacity. -/
structure GoSlice where
  arr : Nat := 0
  off : Nat := 0
  len : Nat := 0
  cap : Nat := 0
deriving DecidableEq, Repr

/-- The allocation store: backing arrays of writer identifiers, each
list holding exactly the capacity of its array. -/
abbrev Store := List (List Nat)

/-- Write one slot of one backing array. -/
def storeWrite (st : Store) (a i : Nat) (x : Nat) : Store :=
  st.set a ((st.getD a []).set i x)

/-- The elements a slice header makes visible: `cap` is invisible,
only `len` elements starting at `off` are. -/
def sliceView (st : Store) (s : GoSlice) : List Nat :=
  ((st.getD s.arr []).drop s.off).take s.len

/-- Well-formedness of a slice header over a store: the backing array
exists, the header window fits inside it, and the length does not exceed
the capacity. -/
def okSlice (st : Store) (s : GoSlice) : Prop :=
  s.arr < st.length ∧ s.off + s.cap ≤ (st.getD s.arr []).length ∧ s.len ≤ s.cap

instance (st : Store) (s : GoSlice) : Decidable (okSlice st s) := by
  unfold okSlice
  infer_instance

/-- Go runtime capacity growth for the small slices reached here: a zero
capacity grows to one, otherwise the capacity doubles. -/
def growCap (c : Nat) : Nat :=
  if c = 0 then 1 else 2 * c

/-- Model of Go `append(s, x)` for a one-element append: with spare
capacity the element is written in place into the shared backing array
and only the returned header sees the longer length; otherwise a fresh
array of grown capacity is allocated and the visible elements are
copied. -/
def goAppend (st : Store) (s : GoSlice) (x : Nat) : Store × GoSlice :=
  if s.len < s.cap then
    (storeWrite st s.arr (s.off + s.len) x, { s with len := s.len + 1 })
  else
    let contents := sliceView st s ++ [x]
    let newCap := growCap s.cap
    let arrData := contents ++ List.replicate (newCap - contents.length) 0
    (st ++ [arrData], ⟨st.length, 0, s.len + 1, newCap⟩)

/-! Levels and configuration. -/

/-- The seven level-name constants exported by the package
(`LevelTrace` .. `LevelDisabled`), collected in the `Levels` list. -/
def Levels : List String := ["trace", "debug", "info", "warn", "error", "fatal", "disabled"]

/-- The `LevelInfo` constant, used as default level by `New`. -/
def LevelInfo : String := "info"

/-- The `LevelDisabled` constant. -/
def LevelDisabled : String := "disabled"

/-- ASCII-wise lower-casing, modelling the case folding performed by
`strings.EqualFold` on the ASCII level names. -/
def lowerAscii (s : String) : String :=
  ⟨s.data.map Char.toLower⟩

/-- All digits of a non-empty character list read as a decimal number;
`none` when the list is empty or holds a non-digit. -/
def digitsVal (cs : List Char) : Option Nat :=
  if cs.isEmpty then none
  else if cs.all Char.isDigit then
    some (cs.foldl (fun a c => a * 10 + (c.toNat - 48)) 0)
  else none

/-- Model of Go `strconv.Atoi`: an optional sign followed by decimal
digits.  (Out-of-range integers are handled by the range check of the
caller, which rejects everything outside -128..127 exactly as the Go
code rejects it either in `Atoi` or in its own range test.) -/
def atoiGo (s : String) : Option Int :=
  match s.data with
  | '+' :: rest => (digitsVal rest).map Int.ofNat
  | '-' :: rest => (digitsVal rest).map (fun n => -(n : Int))
  | cs => (digitsVal cs).map Int.ofNat

/-- The level strings accepted by `zerolog.ParseLevel` (v1.33.0): the
marshalled names of the eight zerolog levels plus the empty marshalled
name of `NoLevel`, compared with `strings.EqualFold`, and otherwise any
decimal integer between -128 and 127. -/
def parseLevelOk (s : String) : Bool :=
  ["trace", "debug", "info", "warn", "error", "fatal", "panic", "disabled", ""].contains
      (lowerAscii s)
    || (match atoiGo s with
        | some i => decide ((-128 : Int) ≤ i ∧ i ≤ 127)
        | none => false)

/-- Shallow embedding of the `Config` value: the writer list is a Go
slice into the store; the hook, error counter and diode alert function
are modelled by presence flags; the diode polling interval is in
milliseconds.  Field defaults are the Go zero values. -/
structure Config where
  Writers : GoSlice := {}
  Level : String := ""
  TimeFieldFormat : String := ""
  hasHook : Bool := false
  ToIgnore : List String := []
  hasErrorCounter : Bool := false
  DiodeSize : Nat := 0
  DiodePollingIntervalMs : Nat := 0
  UseDiodeWaiter : Bool := false
  hasDiodeAlertFunc : Bool := false
  NoDiode : Bool := false
  StackTrace : Bool := false
deriving DecidableEq, Repr

/-- `NewConfig(writers...)`: a fresh `Config` whose writer slice is the
variadic argument slice, a freshly allocated array with length equal to
capacity. -/
def NewConfig (st : Store) (ws : List Nat) : Store × Config :=
  (st ++ [ws], { Writers := ⟨st.length, 0, ws.length, ws.length⟩ })

/-- `Config.WithWriter(w)`: append the writer to the (copied) receiver
and return the modified copy; the append may share the backing array
with the receiver. -/
def Config.WithWriter (st : Store) (c : Config) (w : Nat) : Store × Config :=
  let p := goAppend st c.Writers w
  (p.1, { c with Writers := p.2 })

/-- `Config.WithLevel`. -/
def Config.WithLevel (c : Config) (level : String) : Config :=
  { c with Level := level }

/-- `Config.WithToIgnore`. -/
def Config.WithToIgnore (c : Config) (toIgnore : List String) : Config :=
  { c with ToIgnore := toIgnore }

/-- `Config.WithTimeFieldFormat`. -/
def Config.WithTimeFieldFormat (c : Config) (format : String) : Config :=
  { c with TimeFieldFormat := format }

/-- `Config.WithDiodeSize`. -/
def Config.WithDiodeSize (c : Config) (size : Nat) : Config :=
  { c with DiodeSize := size }

/-- `Config.WithNoDiode`. -/
def Config.WithNoDiode (c : Config) : Config :=
  { c with NoDiode := true }

/-- `Config.WithDiodeWaiter`. -/
def Config.WithDiodeWaiter (c : Config) : Config :=
  { c with UseDiodeWaiter := true }

/-- `Config.WithStackTrace`. -/
def Config.WithStackTrace (c : Config) : Config :=
  { c with StackTrace := true }

/-- `Config.WithErrorCounter` (counter modelled by its presence). -/
def Config.WithErrorCounter (c : Config) : Config :=
  { c with hasErrorCounter := true }

/-- Shallow embedding of `New(cfg, fields...)` at the level of the
record model: the writer and diode wiring builds backend output plumbing
outside this model; what `New` decides here is whether construction
panics (a non-empty level that `zerolog.ParseLevel` rejects, after the
empty level defaulted to info) and, otherwise, which logger state is
built from the configuration (`toIgnore`, `stackTrace`, and the
possibly-nil error counter taken verbatim from the configuration).
`none` models the panic. -/
def NewLogger (cfg : Config) : Option Logger :=
  let lvl := if cfg.Level = "" then LevelInfo else cfg.Level
  if parseLevelOk lvl then
    some { toIgnore := cfg.ToIgnore, stackTrace := cfg.StackTrace,
           hasCounter := cfg.hasErrorCounter }
  else none

/-! Helper lemmas shared by the claim theorems. -/

/-- `log` on an ignored message drops everything. -/
theorem log_of_ignored (l : Logger) (ev : Event) (msg : String) (fields : List Val)
    (h : ignored l msg = true) : l.log ev msg fields = ⟨[], []⟩ := by
  simp [Logger.log, h]

/-- `logf` on an ignored format string drops everything. -/
theorem logf_of_ignored (l : Logger) (ev : Event) (msg : String) (args : List Val)
    (h : ignored l msg = true) : l.logf ev msg args = ⟨[], []⟩ := by
  simp [Logger.logf, h]

/-- `log` emits exactly one record unless the message is ignored. -/
theorem log_records_length (l : Logger) (ev : Event) (msg : String) (fields : List Val) :
    (l.log ev msg fields).records.length = if ignored l msg then 0 else 1 := by
  unfold Logger.log
  repeat' split
  all_goals rfl

/-- `logf` emits exactly one record unless the format string is
ignored. -/
theorem logf_records_length (l : Logger) (ev : Event) (msg : String) (args : List Val) :
    (l.logf ev msg args).records.length = if ignored l msg then 0 else 1 := by
  unfold Logger.logf
  dsimp only
  repeat' split
  all_goals rfl

/-- A list without error-typed values has no first error. -/
theorem findErrIdx_of_errFree (args : List Val)
    (h : args.all (fun a => !isErrorVal a) = true) : findErrIdx args = none := by
  induction args with
  | nil => rfl
  | cons a rest ih =>
      simp only [List.all_cons, Bool.and_eq_true] at h
      unfold findErrIdx
      cases a with
      | verr e => simp [isErrorVal] at h
      | vstr s => simp [ih h.2]
      | vint n => simp [ih h.2]
      | vnil => simp [ih h.2]

/-- Without a first error, `setErrorWithStack` is the identity on event
and arguments and counts nothing. -/
theorem setErrorWithStack_of_none (l : Logger) (ev : Event) (args : List Val)
    (h : findErrIdx args = none) : l.setErrorWithStack ev args = ⟨ev, [], args⟩ := by
  simp [Logger.setErrorWithStack, h]

/-! Claim C1. -/

/-- C1 counterexample: a logger whose ignore-list matches the message
still increments the ErrorCounter on the dedicated error entry point
`Err` — the error scan over the dedicated error argument runs before the
suppression check — so the claim that no side effect happens (counter
included) is false at this input, although indeed no record is
emitted. -/
theorem err_ignored_counter_cex :
    (Logger.Err ⟨["boom"], false, true⟩ (Val.verr "e") "boom" []).records = [] ∧
    (Logger.Err ⟨["boom"], false, true⟩ (Val.verr "e") "boom" []).incs = ["e"] ∧
    (["e"] : List String) ≠ [] := by
  refine ⟨by decide, by decide, by decide⟩

/-- C1 (amended): an ignore-list match against the message suppresses
the record at every severity, and for the plain leveled and formatted
entry points it suppresses every side effect including counter
increments; the dedicated error entry point `Err`, however, performs its
error extraction (and counter increment) before the suppression check,
and the Fatal entry point still increments the counter with the
synthesized error and terminates the process — only the record itself is
elided there. -/
theorem ignore_suppression_by_entry
    (l : Logger) (sev : Severity) (msg : String) (fields args : List Val)
    (e : Val) (v : List Val)
    (hm : ignored l msg = true) (hv : ignored l (sprintVals v) = true) :
    l.leveled sev msg fields = ⟨[], []⟩ ∧
    l.leveledf sev msg args = ⟨[], []⟩ ∧
    (l.Err e msg fields).records = [] ∧
    (l.Err e msg fields).incs = (l.setErrorWithStack (Event.new .error) [e]).incs ∧
    (l.Fatal v).records = [] ∧
    (l.Fatal v).incs = (if l.hasCounter then [sprintVals v] else []) ∧
    (l.Fatal v).exited = true := by
  refine ⟨?_, ?_, ?_, ?_, ?_, ?_, rfl⟩
  · cases sev <;>
      simp [Logger.leveled, Logger.Trace, Logger.Debug, Logger.Info, Logger.Warn,
        Logger.Error, log_of_ignored, hm]
  · cases sev <;>
      simp [Logger.leveledf, Logger.Tracef, Logger.Debugf, Logger.Infof, Logger.Warnf,
        Logger.Errorf, logf_of_ignored, hm]
  · simp [Logger.Err, log_of_ignored, hm]
  · simp [Logger.Err, log_of_ignored, hm]
  · simp [Logger.Fatal, log_of_ignored, hv]
  · simp [Logger.Fatal, log_of_ignored, hv]

/-- C1 witness: the amended suppression behaviour at a concrete logger,
message and error. -/
theorem ignore_suppression_by_entry_witness :
    Logger.leveled ⟨["x"], false, true⟩ .info "x" [] = ⟨[], []⟩ ∧
    Logger.leveledf ⟨["x"], false, true⟩ .info "x" [] = ⟨[], []⟩ ∧
    (Logger.Err ⟨["x"], false, true⟩ (Val.verr "w") "x" []).records = [] ∧
    (Logger.Err ⟨["x"], false, true⟩ (Val.verr "w") "x" []).incs =
      (Logger.setErrorWithStack ⟨["x"], false, true⟩ (Event.new .error) [Val.verr "w"]).incs ∧
    (Logger.Fatal ⟨["x"], false, true⟩ [Val.vstr "x"]).records = [] ∧
    (Logger.Fatal ⟨["x"], false, true⟩ [Val.vstr "x"]).incs =
      (if (Logger.mk ["x"] false true).hasCounter
        then [sprintVals [Val.vstr "x"]] else []) ∧
    (Logger.Fatal ⟨["x"], false, true⟩ [Val.vstr "x"]).exited = true :=
  ignore_suppression_by_entry ⟨["x"], false, true⟩ .info "x" [] []
    (Val.verr "w") [Val.vstr "x"] (by decide) (by decide)

/-! Claim C2. -/

/-- C2: a non-formatted leveled call with fields
`[k1, v1, "error", errX, k2, v2]` emits one record whose dedicated error
attribute is the string form of `errX`, whose field pairs are exactly
`(k1, v1)` and `(k2, v2)` and no others, and increments the counter
exactly once; moreover only the first error-typed argument is extracted:
with a later error-typed argument in place of `v2`, that error remains
an ordinary field value, the extracted error is still `errX`, and the
counter still increments exactly once. -/
theorem log_error_extraction_shape
    (l : Logger) (sev : Severity) (msg k1 v1 k2 v2 e e2 : String)
    (hm : ignored l msg = false) (hc : l.hasCounter = true) :
    (l.leveled sev msg
        [.vstr k1, .vstr v1, .vstr "error", .verr e, .vstr k2, .vstr v2]).incs = [e] ∧
    (l.leveled sev msg
        [.vstr k1, .vstr v1, .vstr "error", .verr e, .vstr k2, .vstr v2]).records.length = 1 ∧
    (∀ r ∈ (l.leveled sev msg
        [.vstr k1, .vstr v1, .vstr "error", .verr e, .vstr k2, .vstr v2]).records,
      r.errs = [e] ∧ r.msg = msg ∧
      (∀ p : String × Val,
        p ∈ r.fields ↔ p = (k1, Val.vstr v1) ∨ p = (k2, Val.vstr v2))) ∧
    (l.leveled sev msg
        [.vstr k1, .vstr v1, .vstr "error", .verr e, .vstr k2, .verr e2]).incs = [e] ∧
    (∀ r ∈ (l.leveled sev msg
        [.vstr k1, .vstr v1, .vstr "error", .verr e, .vstr k2, .verr e2]).records,
      r.errs = [e] ∧ (k2, Val.verr e2) ∈ r.fields) := by
  cases sev <;> cases hst : l.stackTrace <;>
    simp [Logger.leveled, Logger.Trace, Logger.Debug, Logger.Info, Logger.Warn,
      Logger.Error, Logger.log, Logger.setErrorWithStack, findErrIdx, removeAtPair,
      Event.addFields, Event.toRecord, Event.new, pairsOf, hm, hc, hst]

/-- C2 witness: the extraction shape at a concrete logger and concrete
strings. -/
theorem log_error_extraction_shape_witness :
    (Logger.leveled ⟨[], false, true⟩ .info "m"
        [.vstr "k1", .vstr "v1", .vstr "error", .verr "E", .vstr "k2", .vstr "v2"]).incs
      = ["E"] ∧
    (Logger.leveled ⟨[], false, true⟩ .info "m"
        [.vstr "k1", .vstr "v1", .vstr "error", .verr "E", .vstr "k2", .vstr "v2"]).records.length
      = 1 ∧
    (∀ r ∈ (Logger.leveled ⟨[], false, true⟩ .info "m"
        [.vstr "k1", .vstr "v1", .vstr "error", .verr "E", .vstr "k2", .vstr "v2"]).records,
      r.errs = ["E"] ∧ r.msg = "m" ∧
      (∀ p : String × Val,
        p ∈ r.fields ↔ p = ("k1", Val.vstr "v1") ∨ p = ("k2", Val.vstr "v2"))) ∧
    (Logger.leveled ⟨[], false, true⟩ .info "m"
        [.vstr "k1", .vstr "v1", .vstr "error", .verr "E", .vstr "k2", .verr "F"]).incs
      = ["E"] ∧
    (∀ r ∈ (Logger.leveled ⟨[], false, true⟩ .info "m"
        [.vstr "k1", .vstr "v1", .vstr "error", .verr "E", .vstr "k2", .verr "F"]).records,
      r.errs = ["E"] ∧ ("k2", Val.verr "F") ∈ r.fields) :=
  log_error_extraction_shape ⟨[], false, true⟩ .info "m" "k1" "v1" "k2" "v2" "E" "F"
    (by decide) (by decide)

/-! Claim C3. -/

/-- C3 failing-input evaluation: `Infof "%s %s" a errX "k" "v"` has two
percent markers and four arguments, so per the claim the substitutions
should be the first two original arguments `a` and `errX`.  The code
first runs the error scan over all arguments; the in-place removal for
the error at index 1 shifts the backing array to `[k, v, k, v]`, and
only then is the slice split, so the `Msgf` substitutions are `[k, v]`,
not the original first two arguments, and the remaining original
arguments `k`, `v` do get used as substitutions. -/
theorem logf_shift_eval :
    Logger.Infof ⟨[], false, true⟩ "%s %s"
        [Val.vstr "a", Val.verr "E", Val.vstr "k", Val.vstr "v"] =
      ⟨[⟨.info, "%s %s", [Val.vstr "k", Val.vstr "v"], [("k", Val.vstr "v")],
          ["E"], false, false⟩], ["E"]⟩ ∧
    ([Val.vstr "k", Val.vstr "v"] : List Val) ≠
      [Val.vstr "a", Val.verr "E", Val.vstr "k", Val.vstr "v"].take 2 := by
  refine ⟨by decide, by decide⟩

/-! Claim C4. -/

/-- C4 counterexample: a formatted call with a marker-free message and
argument list `[k1, v1, "error", errX, k2, v2]` does not attach the
entire argument list as field pairs: the error is extracted into the
dedicated error attribute, its preceding key is overwritten by the
in-place removal, and the final pair is duplicated. -/
theorem logf_zero_verb_error_cex :
    (Logger.Infof ⟨[], false, true⟩ "hello"
        [Val.vstr "k1", Val.vstr "v1", Val.vstr "error", Val.verr "E",
         Val.vstr "k2", Val.vstr "v2"]).records.map Record.fields =
      [[("k1", Val.vstr "v1"), ("k2", Val.vstr "v2"), ("k2", Val.vstr "v2")]] ∧
    (Logger.Infof ⟨[], false, true⟩ "hello"
        [Val.vstr "k1", Val.vstr "v1", Val.vstr "error", Val.verr "E",
         Val.vstr "k2", Val.vstr "v2"]).records.map Record.fields ≠
      [pairsOf [Val.vstr "k1", Val.vstr "v1", Val.vstr "error", Val.verr "E",
         Val.vstr "k2", Val.vstr "v2"]] := by
  refine ⟨by decide, by decide⟩

/-- C4 (amended): a formatted call whose message has zero percent
markers and whose non-empty argument list holds no error-typed value
attaches the entire argument list as field pairs, attempts no
substitution, counts nothing and emits the message verbatim; an
error-typed argument is instead diverted through the error extraction,
which sets the dedicated error attribute and mutates the field list in
place. -/
theorem logf_zero_verb_fields
    (l : Logger) (sev : Severity) (msg : String) (args : List Val)
    (hm : ignored l msg = false) (h0 : countPercent msg = 0) (hne : args ≠ [])
    (hf : args.all (fun a => !isErrorVal a) = true) :
    (l.leveledf sev msg args).incs = [] ∧
    (l.leveledf sev msg args).records.length = 1 ∧
    ∀ r ∈ (l.leveledf sev msg args).records,
      r.msg = msg ∧ r.fmtArgs = [] ∧ r.fields = pairsOf args ∧ r.errs = [] ∧
      r.rendered = msg := by
  have hlen : 0 < args.length := List.length_pos.mpr hne
  have hFE : findErrIdx args = none := findErrIdx_of_errFree args hf
  cases sev <;>
    simp [Logger.leveledf, Logger.Tracef, Logger.Debugf, Logger.Infof, Logger.Warnf,
      Logger.Errorf, Logger.logf, hm, h0, hlen, Logger.setErrorWithStack, hFE,
      Event.addFields, Event.toRecord, Event.new, Record.rendered]

/-- C4 witness: the amended statement at a concrete marker-free call. -/
theorem logf_zero_verb_fields_witness :
    (Logger.leveledf ⟨[], false, true⟩ .info "hello" [Val.vstr "k", Val.vstr "v"]).incs
      = [] ∧
    (Logger.leveledf ⟨[], false, true⟩ .info "hello"
        [Val.vstr "k", Val.vstr "v"]).records.length = 1 ∧
    ∀ r ∈ (Logger.leveledf ⟨[], false, true⟩ .info "hello"
        [Val.vstr "k", Val.vstr "v"]).records,
      r.msg = "hello" ∧ r.fmtArgs = [] ∧
      r.fields = pairsOf [Val.vstr "k", Val.vstr "v"] ∧ r.errs = [] ∧
      r.rendered = "hello" :=
  logf_zero_verb_fields ⟨[], false, true⟩ .info "hello" [Val.vstr "k", Val.vstr "v"]
    (by decide) (by decide) (by decide) (by decide)

/-! Claim C5. -/

/-- C5 counterexample: with ignore entry "e 42", the call
`Infof "value %d" 42` renders to "value 42", which contains the entry,
so per the claim the record should be suppressed; the code tests the
entry against the raw format string "value %d" and emits the record. -/
theorem suppression_rendered_cex :
    (Logger.Infof ⟨["e 42"], false, true⟩ "value %d" [Val.vint 42]).records.length = 1 ∧
    (∀ r ∈ (Logger.Infof ⟨["e 42"], false, true⟩ "value %d" [Val.vint 42]).records,
      goContains r.rendered "e 42" = true) ∧
    goContains "value %d" "e 42" = false := by
  refine ⟨by decide, by decide, by decide⟩

/-- C5 (amended): for every formatted call, suppression is decided by
substring containment against the raw format string, before any
substitution: the call emits no record exactly when some ignore-list
entry is a substring of the unrendered message. -/
theorem logf_suppression_format_string
    (l : Logger) (sev : Severity) (msg : String) (args : List Val) :
    (l.leveledf sev msg args).records = [] ↔ ignored l msg = true := by
  have h : (l.leveledf sev msg args).records.length = if ignored l msg then 0 else 1 := by
    cases sev <;>
      simp [Logger.leveledf, Logger.Tracef, Logger.Debugf, Logger.Infof, Logger.Warnf,
        Logger.Errorf, logf_records_length]
  rw [← List.length_eq_zero]
  rw [h]
  by_cases hig : ignored l msg <;> simp [hig]

/-! Claim C7. -/

/-- C7 counterexample: the level string "panic" is non-empty and is not
one of the seven recognized level names of the package, yet construction
succeeds without raising, because the backend parser accepts it. -/
theorem new_level_panic_name_cex :
    NewLogger { Level := "panic" } = some ⟨[], false, false⟩ ∧
    Levels.contains "panic" = false ∧
    "panic" ≠ "" := by
  refine ⟨by decide, by decide, by decide⟩

/-- C7 (amended): construction panics exactly when the level string is
non-empty and rejected by the backend level parser; the parser accepts
strictly more than the seven level names of the package — all seven,
the name "panic", case-insensitive variants, and decimal integer strings
between -128 and 127 — and an empty level defaults to info, so
construction succeeds on all of those. -/
theorem new_panics_iff_level_unparseable :
    (∀ cfg : Config,
      NewLogger cfg = none ↔ (cfg.Level ≠ "" ∧ parseLevelOk cfg.Level = false)) ∧
    (∀ s, s ∈ Levels → parseLevelOk s = true) ∧
    parseLevelOk "panic" = true ∧ parseLevelOk "INFO" = true ∧
    parseLevelOk "42" = true ∧ parseLevelOk "bogus" = false := by
  refine ⟨?_, by decide, by decide, by decide, by decide, by decide⟩
  intro cfg
  by_cases hL : cfg.Level = ""
  · have : parseLevelOk LevelInfo = true := by decide
    simp [NewLogger, hL, this]
  · cases hp : parseLevelOk cfg.Level <;> simp [NewLogger, hL, hp]

/-- C7 witness: the panic condition applied at a concrete rejected
configuration and a concrete accepted level name. -/
theorem new_panics_iff_level_unparseable_witness :
    NewLogger { Level := "bogus" } = none ∧ parseLevelOk "trace" = true :=
  ⟨(new_panics_iff_level_unparseable.1 { Level := "bogus" }).mpr
      ⟨by decide, by decide⟩,
    new_panics_iff_level_unparseable.2.1 "trace" (by decide)⟩

/-! Claim C8. -/

/-- C8 counterexample: a Fatal call whose rendered message matches the
ignore-list emits no record at all, although the claim states that every
Fatal call logs the record; the counter increment and the process
termination still happen. -/
theorem fatal_ignored_record_cex :
    Logger.Fatal ⟨["boom"], false, true⟩ [Val.vstr "boom"] = ⟨[], ["boom"], true⟩ ∧
    ([] : List Record) ≠
      [(Event.new .fatal).toRecord (sprintVals [Val.vstr "boom"]) []] := by
  refine ⟨by decide, by decide⟩

/-- C8 (amended): every Fatal-level call on a logger with an attached
counter increments the ErrorCounter with a synthesized error built from
the rendered message — `fmt.Sprint` of the operands for `Fatal`,
`fmt.Sprintln` for `Fatalln`, and `fmt.Errorf` of the format for
`Fatalf` — and then unconditionally reaches the process termination;
the record is logged exactly when the message does not match the
ignore-list. -/
theorem fatal_counts_and_exits
    (l : Logger) (v : List Val) (format : String) (args : List Val)
    (hc : l.hasCounter = true) :
    (l.Fatal v).exited = true ∧
    (l.Fatal v).incs = [sprintVals v] ∧
    (l.Fatal v).records =
      (if ignored l (sprintVals v) then []
       else [(Event.new .fatal).toRecord (sprintVals v) []]) ∧
    (l.Fatalln v).exited = true ∧
    (l.Fatalln v).incs = [sprintlnVals v] ∧
    (l.Fatalln v).records =
      (if ignored l (sprintlnVals v) then []
       else [(Event.new .fatal).toRecord (sprintlnVals v) []]) ∧
    (l.Fatalf format args).exited = true ∧
    (l.Fatalf format args).incs.head? = some (sprintf format args) ∧
    (l.Fatalf format args).records.length = (if ignored l format then 0 else 1) := by
  refine ⟨rfl, ?_, ?_, rfl, ?_, ?_, rfl, ?_, ?_⟩
  · by_cases h : ignored l (sprintVals v) <;> simp [Logger.Fatal, Logger.log, h, hc]
  · by_cases h : ignored l (sprintVals v) <;> simp [Logger.Fatal, Logger.log, h, hc]
  · by_cases h : ignored l (sprintlnVals v) <;> simp [Logger.Fatalln, Logger.log, h, hc]
  · by_cases h : ignored l (sprintlnVals v) <;> simp [Logger.Fatalln, Logger.log, h, hc]
  · simp [Logger.Fatalf, hc]
  · simp [Logger.Fatalf, log_records_length]

/-- C8 witness: the fatal contract at a concrete logger, operand list
and format. -/
theorem fatal_counts_and_exits_witness :
    (Logger.Fatal ⟨[], false, true⟩ [Val.vstr "m"]).exited = true ∧
    (Logger.Fatal ⟨[], false, true⟩ [Val.vstr "m"]).incs = [sprintVals [Val.vstr "m"]] ∧
    (Logger.Fatal ⟨[], false, true⟩ [Val.vstr "m"]).records =
      (if ignored ⟨[], false, true⟩ (sprintVals [Val.vstr "m"]) then []
       else [(Event.new .fatal).toRecord (sprintVals [Val.vstr "m"]) []]) ∧
    (Logger.Fatalln ⟨[], false, true⟩ [Val.vstr "m"]).exited = true ∧
    (Logger.Fatalln ⟨[], false, true⟩ [Val.vstr "m"]).incs =
      [sprintlnVals [Val.vstr "m"]] ∧
    (Logger.Fatalln ⟨[], false, true⟩ [Val.vstr "m"]).records =
      (if ignored ⟨[], false, true⟩ (sprintlnVals [Val.vstr "m"]) then []
       else [(Event.new .fatal).toRecord (sprintlnVals [Val.vstr "m"]) []]) ∧
    (Logger.Fatalf ⟨[], false, true⟩ "f" []).exited = true ∧
    (Logger.Fatalf ⟨[], false, true⟩ "f" []).incs.head? = some (sprintf "f" []) ∧
    (Logger.Fatalf ⟨[], false, true⟩ "f" []).records.length =
      (if ignored ⟨[], false, true⟩ "f" then 0 else 1) :=
  fatal_counts_and_exits ⟨[], false, true⟩ [Val.vstr "m"] "f" [] (by decide)

/-! Claim C9. -/

/-- C9 counterexample: `Err` with a nil error, an empty ignore-list and
the field list `["k", errY]` emits a record whose dedicated error
attribute is the string form of `errY` — an error value — because the
field scan extracts the error-typed field; the claim that the record
carries a null/absent error field for every field list is therefore
false. -/
theorem err_nil_error_field_cex :
    Logger.Err ⟨[], false, true⟩ Val.vnil "m" [Val.vstr "k", Val.verr "E"] =
      ⟨[⟨.error, "m", [], [("k", Val.verr "E")], ["E"], false, false⟩], ["E"]⟩ ∧
    (["E"] : List String) ≠ [] := by
  refine ⟨by decide, by decide⟩

/-- C9 (amended): passing a nil error to `Err` never elides the call —
whenever the message does not match the ignore-list, exactly one record
is emitted — and the nil error itself contributes no error attribute and
no counter increment: when the field list holds no error-typed value the
record carries an absent error attribute and the counter is untouched.
(An error-typed value inside the field list is extracted into the error
attribute by the field scan, as the counterexample shows.) -/
theorem err_nil_emits_record
    (l : Logger) (msg : String) (fields : List Val)
    (hm : ignored l msg = false) :
    (l.Err Val.vnil msg fields).records.length = 1 ∧
    (findErrIdx fields = none →
      (l.Err Val.vnil msg fields).incs = [] ∧
      ∀ r ∈ (l.Err Val.vnil msg fields).records, r.errs = [] ∧ r.msg = msg) := by
  have hnil : findErrIdx [Val.vnil] = none := by decide
  constructor
  · simp [Logger.Err, Logger.setErrorWithStack, hnil, log_records_length, hm]
  · intro hf
    simp [Logger.Err, Logger.log, Logger.setErrorWithStack, hnil, hf, hm,
      Event.addFields, Event.toRecord, Event.new]
    by_cases hl : fields.length > 1 <;> simp [hl, Event.toRecord, Event.new]

/-- C9 witness: the nil-error behaviour at a concrete message and error-
free field list. -/
theorem err_nil_emits_record_witness :
    (Logger.Err ⟨[], false, true⟩ Val.vnil "m" [Val.vstr "a", Val.vstr "b"]).records.length
      = 1 ∧
    (findErrIdx [Val.vstr "a", Val.vstr "b"] = none →
      (Logger.Err ⟨[], false, true⟩ Val.vnil "m" [Val.vstr "a", Val.vstr "b"]).incs = [] ∧
      ∀ r ∈ (Logger.Err ⟨[], false, true⟩ Val.vnil "m"
          [Val.vstr "a", Val.vstr "b"]).records,
        r.errs = [] ∧ r.msg = "m") :=
  err_nil_emits_record ⟨[], false, true⟩ "m" [Val.vstr "a", Val.vstr "b"] (by decide)

/-! Claim C10. -/

/-- C10: a non-formatted leveled call with exactly one field argument on
a non-suppressed message emits the record with the message but without
the lone field — the logger forwards the field list to the backend only
when it has more than one element — and performs no error scan and no
counter increment on it; more generally any field list of at most one
element contributes no field pairs to the record. -/
theorem single_field_dropped
    (l : Logger) (sev : Severity) (msg : String) (x : Val)
    (hm : ignored l msg = false) :
    (l.leveled sev msg [x]).incs = [] ∧
    (l.leveled sev msg [x]).records.length = 1 ∧
    (∀ r ∈ (l.leveled sev msg [x]).records,
      r.msg = msg ∧ r.fields = [] ∧ r.errs = [] ∧ r.fmtArgs = []) ∧
    (∀ fields : List Val, fields.length ≤ 1 →
      ∀ r ∈ (l.leveled sev msg fields).records, r.fields = []) := by
  refine ⟨?_, ?_, ?_, ?_⟩
  · cases sev <;>
      simp [Logger.leveled, Logger.Trace, Logger.Debug, Logger.Info, Logger.Warn,
        Logger.Error, Logger.log, hm]
  · cases sev <;>
      simp [Logger.leveled, Logger.Trace, Logger.Debug, Logger.Info, Logger.Warn,
        Logger.Error, log_records_length, hm]
  · cases sev <;>
      simp [Logger.leveled, Logger.Trace, Logger.Debug, Logger.Info, Logger.Warn,
        Logger.Error, Logger.log, hm, Event.toRecord, Event.new]
  · intro fields hlen
    have hgt : ¬ fields.length > 1 := by omega
    cases sev <;>
      simp [Logger.leveled, Logger.Trace, Logger.Debug, Logger.Info, Logger.Warn,
        Logger.Error, Logger.log, hm, hgt, Event.toRecord, Event.new]

/-- C10 witness: the lone field is dropped at a concrete call. -/
theorem single_field_dropped_witness :
    (Logger.leveled ⟨[], false, true⟩ .info "m" [Val.vstr "orphan"]).incs = [] ∧
    (Logger.leveled ⟨[], false, true⟩ .info "m" [Val.vstr "orphan"]).records.length = 1 ∧
    (∀ r ∈ (Logger.leveled ⟨[], false, true⟩ .info "m" [Val.vstr "orphan"]).records,
      r.msg = "m" ∧ r.fields = [] ∧ r.errs = [] ∧ r.fmtArgs = []) ∧
    (∀ fields : List Val, fields.length ≤ 1 →
      ∀ r ∈ (Logger.leveled ⟨[], false, true⟩ .info "m" fields).records,
        r.fields = []) :=
  single_field_dropped ⟨[], false, true⟩ .info "m" (Val.vstr "orphan") (by decide)

/-! Claim C6. -/

/-- Reading an array left alone by `List.set` on another index of the
store, here specialised to the same array (the only case needed): the
store cell written by `storeWrite` is recovered. -/
theorem getD_set_self (st : Store) (a : Nat) (X : List Nat) (h : a < st.length) :
    (st.set a X).getD a [] = X := by
  rw [List.getD_eq_getElem?_getD, List.getElem?_set_self h, Option.getD_some]

/-- Appending a fresh array to the store leaves existing arrays
readable unchanged. -/
theorem getD_append_lt (st : Store) (A : List Nat) (a : Nat) (h : a < st.length) :
    (st ++ [A]).getD a [] = st.getD a [] :=
  List.getD_append _ _ _ _ h

/-- The freshly appended array is read back at index `st.length`. -/
theorem getD_concat_self (st : Store) (A : List Nat) :
    (st ++ [A]).getD st.length [] = A := by
  rw [List.getD_eq_getElem?_getD, List.getElem?_concat_length, Option.getD_some]

/-- Setting one slot just past a window then taking the window is the
identity on the window. -/
theorem take_of_set_at (M : List Nat) (n : Nat) (x : Nat) :
    (M.set n x).take n = M.take n := by
  rw [List.set_take]
  apply List.set_eq_of_length_le
  simp [List.length_take]

/-- Setting the slot at the window boundary then taking one element more
appends exactly that slot. -/
theorem take_succ_of_set_at (M : List Nat) (n : Nat) (x : Nat) (h : n < M.length) :
    (M.set n x).take (n + 1) = M.take n ++ [x] := by
  rw [List.take_succ, take_of_set_at]
  have hx : (M.set n x)[n]? = some x := List.getElem?_set_self h
  rw [hx]
  rfl

/-- A well-formed slice view has exactly `len` elements. -/
theorem length_sliceView (st : Store) (s : GoSlice) (hw : okSlice st s) :
    (sliceView st s).length = s.len := by
  obtain ⟨ha, hfit, hlc⟩ := hw
  simp only [sliceView, List.length_take, List.length_drop]
  omega

/-- `goAppend` never changes what the original slice header sees: the
in-place write lands one slot past the visible window, and a
reallocation does not touch existing arrays. -/
theorem goAppend_view_frame (st : Store) (s : GoSlice) (x : Nat)
    (hw : okSlice st s) :
    sliceView (goAppend st s x).1 s = sliceView st s := by
  obtain ⟨ha, hfit, hlc⟩ := hw
  unfold goAppend
  by_cases hlt : s.len < s.cap
  · simp only [hlt, if_true]
    unfold sliceView storeWrite
    rw [getD_set_self st s.arr _ ha, ← List.set_drop, take_of_set_at]
  · simp only [hlt, if_false]
    unfold sliceView
    rw [getD_append_lt st _ s.arr ha]

/-- `goAppend` makes the returned slice header see exactly the old view
with the new element appended. -/
theorem goAppend_view_new (st : Store) (s : GoSlice) (x : Nat)
    (hw : okSlice st s) :
    sliceView (goAppend st s x).1 (goAppend st s x).2 = sliceView st s ++ [x] := by
  obtain ⟨ha, hfit, hlc⟩ := hw
  unfold goAppend
  by_cases hlt : s.len < s.cap
  · simp only [hlt, if_true]
    unfold sliceView storeWrite
    rw [getD_set_self st s.arr _ ha, ← List.set_drop]
    apply take_succ_of_set_at
    simp only [List.length_drop]
    omega
  · simp only [hlt, if_false]
    unfold sliceView
    simp only [List.drop_zero]
    rw [getD_concat_self]
    have hlenv : (sliceView st s).length = s.len := length_sliceView st s ⟨ha, hfit, hlc⟩
    have hcl : ((sliceView st s ++ [x])).length = s.len + 1 := by simp [hlenv]
    exact List.take_left' hcl

/-- C6 counterexample: starting from `NewConfig()` and appending three
writers gives a base configuration whose writer slice has length three
and capacity four; two successive `WithWriter` calls on that same base
then write into the same spare slot of the shared backing array, so the
second call silently changes the writer list of the first result
from `[1, 2, 3, 4]` to `[1, 2, 3, 5]` — the builder does not behave as
a pure copy. -/
theorem withwriter_alias_cex :
    (let p0 := NewConfig [] []
     let p1 := Config.WithWriter p0.1 p0.2 1
     let p2 := Config.WithWriter p1.1 p1.2 2
     let p3 := Config.WithWriter p2.1 p2.2 3
     let p4 := Config.WithWriter p3.1 p3.2 4
     let p5 := Config.WithWriter p4.1 p3.2 5
     sliceView p4.1 p4.2.Writers = [1, 2, 3, 4] ∧
       sliceView p5.1 p4.2.Writers = [1, 2, 3, 5] ∧
       sliceView p5.1 p5.2.Writers = [1, 2, 3, 5] ∧
       sliceView p5.1 p3.2.Writers = [1, 2, 3]) := by
  decide

/-- C6 (amended): every `With*` builder returns a modified copy and
leaves the receiver itself unchanged — in particular `WithWriter` never
alters the writer list visible through the receiver, and the scalar
builders copy every other field — and the returned copy sees the old
writer list extended by the new writer; but the returned copy may share
its backing array with the receiver, so a later `WithWriter` on the same
receiver can overwrite the element just appended in an earlier result
(see the counterexample). -/
theorem withwriter_receiver_frame (st : Store) (c : Config) (w : Nat)
    (hw : okSlice st c.Writers) :
    sliceView (Config.WithWriter st c w).1 c.Writers = sliceView st c.Writers ∧
    sliceView (Config.WithWriter st c w).1 (Config.WithWriter st c w).2.Writers
      = sliceView st c.Writers ++ [w] ∧
    (Config.WithWriter st c w).2.Level = c.Level ∧
    (Config.WithWriter st c w).2.ToIgnore = c.ToIgnore ∧
    (Config.WithWriter st c w).2.StackTrace = c.StackTrace ∧
    (Config.WithLevel c "debug").Writers = c.Writers ∧
    (Config.WithStackTrace c).Writers = c.Writers :=
  ⟨goAppend_view_frame st c.Writers w hw, goAppend_view_new st c.Writers w hw,
   rfl, rfl, rfl, rfl, rfl⟩

/-- C6 witness: the receiver-frame property at a concrete store and
configuration. -/
theorem withwriter_receiver_frame_witness :
    sliceView (Config.WithWriter [[7]] { Writers := ⟨0, 0, 1, 1⟩ } 9).1
        (Config.mk ⟨0, 0, 1, 1⟩ "" "" false [] false 0 0 false false false false).Writers
      = sliceView [[7]] (Config.mk ⟨0, 0, 1, 1⟩ "" "" false [] false
          0 0 false false false false).Writers ∧
    sliceView (Config.WithWriter [[7]] { Writers := ⟨0, 0, 1, 1⟩ } 9).1
        (Config.WithWriter [[7]] { Writers := ⟨0, 0, 1, 1⟩ } 9).2.Writers
      = sliceView [[7]] (Config.mk ⟨0, 0, 1, 1⟩ "" "" false [] false
          0 0 false false false false).Writers ++ [9] ∧
    (Config.WithWriter [[7]] { Writers := ⟨0, 0, 1, 1⟩ } 9).2.Level
      = (Config.mk ⟨0, 0, 1, 1⟩ "" "" false [] false 0 0 false false false false).Level ∧
    (Config.WithWriter [[7]] { Writers := ⟨0, 0, 1, 1⟩ } 9).2.ToIgnore
      = (Config.mk ⟨0, 0, 1, 1⟩ "" "" false [] false 0 0 false false false false).ToIgnore ∧
    (Config.WithWriter [[7]] { Writers := ⟨0, 0, 1, 1⟩ } 9).2.StackTrace
      = (Config.mk ⟨0, 0, 1, 1⟩ "" "" false [] false 0 0 false false false false).StackTrace ∧
    (Config.WithLevel { Writers := ⟨0, 0, 1, 1⟩ } "debug").Writers
      = (Config.mk ⟨0, 0, 1, 1⟩ "" "" false [] false 0 0 false false false false).Writers ∧
    (Config.WithStackTrace { Writers := ⟨0, 0, 1, 1⟩ }).Writers
      = (Config.mk ⟨0, 0, 1, 1⟩ "" "" false [] false 0 0 false false false false).Writers :=
  withwriter_receiver_frame [[7]] { Writers := ⟨0, 0, 1, 1⟩ } 9 (by decide)

end Logze
